import Mathlib

/-!
Shallow embedding of the log-viewer subsystem of `src/js/config.js`
(the `logViewerState` object and the functions `normalizeEntry`,
`loadLogs`, `startLogAutoRefresh`, `stopLogAutoRefresh`,
`saveLogSettings`, and the `logs-purge` click handler).

The embedding models the client state machine exactly as the source
executes it on the single-threaded JS event loop: every network call is
the only suspension point, so each operation is split into its
synchronous prefix (up to the `fetch`) and the synchronous resolution
callback.  DOM rendering helpers (`renderLogEntries`, `updateLogControls`,
status messages) read state but do not change the modelled fields and are
omitted.
-/

namespace Wirelessboard

/-- Abstraction of a JS value as seen by `parseInt(v, 10)`:
`null` stands for JS `null`/`undefined` (an absent field), `int n` for any
value (number or numeric string) that `parseInt` maps to the integer `n`,
and `junk` for any value `parseInt` maps to `NaN` (this includes the case
where both fields are null, since `parseInt(null, 10)` is `NaN`). -/
inductive JField
  | null
  | int (n : Int)
  | junk
deriving DecidableEq, Repr

/-- Result of `parseInt(v, 10)` on the abstracted value; `none` is `NaN`. -/
def jparse : JField → Option Int
  | .null => none
  | .int n => some n
  | .junk => none

/-- A raw entry from the wire, restricted to the two fields that
`normalizeEntry` uses to compute the ordering key (`source`/`logger` and
`context` normalization affect no modelled behaviour and are omitted). -/
structure RawEntry where
  index : JField
  cursor : JField
deriving DecidableEq, Repr

/-- An entry after `normalizeEntry`: `index` is a genuine integer
(`-1` when no usable non-negative index was parsed). -/
structure LogEntry where
  index : Int
  cursor : JField
deriving DecidableEq, Repr

/-- `entry.index != null ? entry.index : entry.cursor` -/
def selField (e : RawEntry) : JField :=
  match e.index with
  | .null => e.cursor
  | f => f

/-- `normalizeEntry` (src/js/config.js:654-675), index/cursor part:
`const idx = parseInt(entry.index != null ? entry.index : entry.cursor, 10);
if (Number.isFinite(idx) && idx >= 0) { entry.index = idx; entry.cursor = String(idx); }
else { entry.index = -1; }`
`JField.int n` stands for the decimal string `String(n)` as well, since
both parse back to `n`. -/
def normalizeEntry (e : RawEntry) : LogEntry :=
  match jparse (selField e) with
  | some n =>
      if 0 ≤ n then { index := n, cursor := .int n }
      else { index := -1, cursor := e.cursor }
  | none => { index := -1, cursor := e.cursor }

/-- JS `v || 0` on an integer: `0 || 0` is `0`, any other integer is
truthy (including `-1`) and is returned unchanged.  Used in the sort
comparator `(b.index || 0) - (a.index || 0)`. -/
def jsOr0 (n : Int) : Int := if n = 0 then 0 else n

/-- The ordering realised by the comparator
`(a, b) => (b.index || 0) - (a.index || 0)`: `a` may precede `b`
exactly when `b.index ≤ a.index` (descending). -/
def entryGE (a b : LogEntry) : Prop := jsOr0 b.index ≤ jsOr0 a.index

instance : DecidableRel entryGE := fun a b =>
  inferInstanceAs (Decidable (jsOr0 b.index ≤ jsOr0 a.index))

instance : IsTotal LogEntry entryGE :=
  ⟨fun a b => (Int.le_total (jsOr0 b.index) (jsOr0 a.index)).elim Or.inl Or.inr⟩

instance : IsTrans LogEntry entryGE :=
  ⟨fun _ _ _ h1 h2 => le_trans h2 h1⟩

/-- `entries.sort((a, b) => (b.index || 0) - (a.index || 0))` — a stable
descending sort by index (JS `Array.prototype.sort` is stable; insertion
sort is the stable sort with proof support in Mathlib). -/
def sortEntriesDesc (l : List LogEntry) : List LogEntry :=
  l.insertionSort entryGE

/-- The coalesced intent flags of a `loadLogs({ reset, newer })` call. -/
structure Flags where
  reset : Bool
  newer : Bool
deriving DecidableEq, Repr

/-- A successful `GET api/logs` response body: `data.entries` (absent or
non-array modelled as `[]`, matching `Array.isArray(data.entries) ? … : []`),
`data.cursor` (`none` for null/undefined) and `!!data.has_more`. -/
structure LogsResponse where
  entries : List RawEntry
  cursor : Option Int
  has_more : Bool
deriving DecidableEq, Repr

/-- The modelled fields of the `logViewerState` literal
(src/js/config.js:392-412).  `initialized`, `filters`, `options` and
`settings` do not interact with the claims about paging/merge/live-tail
and are left out (`settings` is modelled separately for
`saveLogSettings`). -/
structure ViewState where
  loading : Bool
  autoRefresh : Bool
  pollTimer : Option Nat
  entries : List LogEntry
  nextCursor : Option Int
  hasMore : Bool
  latestIndex : Int
  pending : Option Flags
deriving DecidableEq, Repr

def initViewState : ViewState :=
  { loading := false
    autoRefresh := false
    pollTimer := none
    entries := []
    nextCursor := none
    hasMore := false
    latestIndex := -1
    pending := none }

/-- Client state plus the ambient browser facts the claims mention:
`inFlight` is the single request the network currently owes a response
for (`loadLogs` guarantees at most one), `armed` counts interval timers
currently armed via `setInterval` and not yet cleared, and `nextTimer`
feeds fresh (positive) timer ids. -/
structure Config where
  vs : ViewState
  inFlight : Option Flags
  armed : Nat
  nextTimer : Nat
deriving DecidableEq, Repr

def initConfig : Config :=
  { vs := initViewState, inFlight := none, armed := 0, nextTimer := 1 }

/-- `pending && pending.reset` coerced to its truthiness (the source may
store JS `null`/`false` interchangeably here; both are falsy at every
use site). -/
def pendingReset : Option Flags → Bool
  | some p => p.reset
  | none => false

def pendingNewer : Option Flags → Bool
  | some p => p.newer
  | none => false

/-- The four fields cleared both by a `reset` load (src/js/config.js:866-872)
and by a successful purge (src/js/config.js:562-565). -/
def clearViewFields (vs : ViewState) : ViewState :=
  { vs with
    entries := []
    nextCursor := none
    hasMore := false
    latestIndex := -1 }

/-- Synchronous prefix of `loadLogs({ reset, newer })`
(src/js/config.js:857-875): if a request is already in flight, merge the
intent flags into `pending` (OR with any previously pending flags) and
issue nothing; otherwise clear the view fields when `reset`, mark loading
and issue the request. -/
def callPath (r n : Bool) (c : Config) : Config :=
  if c.vs.loading then
    let merged : Flags :=
      { reset := r || pendingReset c.vs.pending
        newer := n || pendingNewer c.vs.pending }
    { c with vs := { c.vs with pending := some merged } }
  else
    let vs1 := if r then clearViewFields c.vs else c.vs
    { c with
      vs := { vs1 with loading := true }
      inFlight := some { reset := r, newer := n } }

/-- `logViewerState.entries.reduce((max, entry) => { if (entry.index != null
&& entry.index > max) return entry.index; return max; }, latestIndex)` —
`entry.index` is never null after normalization. -/
def foldLatest (init : Int) (l : List LogEntry) : Int :=
  l.foldl (fun mx e => if mx < e.index then e.index else mx) init

/-- The merge branch of `loadLogs` (src/js/config.js:909-921): the three
branches differ only in the entries list they produce, factored out here.
NEWER: sort the batch, keep entries strictly newer than `latestIndex`,
prepend them (skipping the update entirely when the batch or the fresh
subset is empty).  Reset: replace wholesale.  Otherwise (OLDER): append. -/
def mergedEntries (f : Flags) (vs : ViewState) (batch : List LogEntry) :
    List LogEntry :=
  if f.newer then
    if batch.isEmpty then vs.entries
    else
      let sorted := sortEntriesDesc batch
      let fresh := sorted.filter fun e => decide (vs.latestIndex < e.index)
      if fresh.isEmpty then vs.entries else fresh ++ vs.entries
  else if f.reset then batch
  else vs.entries ++ batch

/-- Success continuation of `loadLogs` (src/js/config.js:905-930):
normalize the batch, merge per the request flags, re-sort the whole list
descending, clamp `latestIndex` up over the result, and take
`nextCursor`/`hasMore` verbatim from the response. -/
def mergeResp (f : Flags) (vs : ViewState) (resp : LogsResponse) :
    ViewState :=
  let batch := resp.entries.map normalizeEntry
  let sortedAll := sortEntriesDesc (mergedEntries f vs batch)
  { vs with
    entries := sortedAll
    latestIndex := foldLatest vs.latestIndex sortedAll
    nextCursor := resp.cursor
    hasMore := resp.has_more }

/-- Settlement of the in-flight request (src/js/config.js:932-954): on
success run the merge; on any failure (network error, non-2xx, or body
`ok === false`) change nothing (the catch block only sets a status
message).  Either way the `finally` block clears `loading` and, if an
intent is pending, nulls it and replays `loadLogs(pending)` exactly once. -/
def settlePath (c : Config) (result : Option LogsResponse) : Config :=
  match c.inFlight with
  | none => c
  | some f =>
      let vs1 := match result with
        | some resp => mergeResp f c.vs resp
        | none => c.vs
      let vs2 := { vs1 with loading := false }
      match vs2.pending with
      | none => { c with vs := vs2, inFlight := none }
      | some p =>
          callPath p.reset p.newer
            { c with vs := { vs2 with pending := none }, inFlight := none }

/-- `startLogAutoRefresh` (src/js/config.js:1091-1100): no-op while
already following; otherwise set the flag, fire one `loadLogs({newer:true})`
(whose synchronous prefix runs immediately) and arm one interval timer. -/
def startTailFun (c : Config) : Config :=
  if c.vs.autoRefresh then c
  else
    let c1 := callPath false true
      { c with vs := { c.vs with autoRefresh := true } }
    { c1 with
      vs := { c1.vs with pollTimer := some c1.nextTimer }
      armed := c1.armed + 1
      nextTimer := c1.nextTimer + 1 }

/-- `stopLogAutoRefresh` (src/js/config.js:1102-1113): no-op while
stopped; otherwise clear the flag and, if a timer handle is held, clear
the interval and null the handle (timer ids are positive, so the JS
truthiness test is `isSome`). -/
def stopTailFun (c : Config) : Config :=
  if c.vs.autoRefresh then
    let vs1 := { c.vs with autoRefresh := false }
    match vs1.pollTimer with
    | some _ =>
        { c with
          vs := { vs1 with pollTimer := none }
          armed := c.armed - 1 }
    | none => { c with vs := vs1 }
  else c

/-- Success continuation of the purge click handler
(src/js/config.js:542-573): stop live tail silently, then reset the four
view fields.  A failed purge runs only the catch (status message). -/
def purgeOkFun (c : Config) : Config :=
  let c1 := stopTailFun c
  { c1 with vs := clearViewFields c1.vs }

/-- The externally visible events of the log viewer: a `loadLogs` call
(from the refresh/filter/load-older buttons, a live-tail tick, or the
initial load), the in-flight request settling (successfully or not), the
purge request settling, and the live-tail start/stop toggles. -/
inductive Ev
  | call (reset newer : Bool)
  | settleOk (resp : LogsResponse)
  | settleErr
  | purgeOk
  | purgeErr
  | startTail
  | stopTail
deriving DecidableEq, Repr

def step (c : Config) : Ev → Config
  | .call r n => callPath r n c
  | .settleOk resp => settlePath c (some resp)
  | .settleErr => settlePath c none
  | .purgeOk => purgeOkFun c
  | .purgeErr => c
  | .startTail => startTailFun c
  | .stopTail => stopTailFun c

def run (c : Config) (evs : List Ev) : Config := evs.foldl step c

/-- The index multiset of an entries list. -/
def entryIndices (l : List LogEntry) : List Int := l.map LogEntry.index

def nonnegIndices (l : List LogEntry) : List Int :=
  (entryIndices l).filter fun i => decide (0 ≤ i)

/-- The normalized batch carried by a response. -/
def normBatch (resp : LogsResponse) : List LogEntry :=
  resp.entries.map normalizeEntry

/-- The subset of a (sorted) NEWER batch that survives the freshness
filter against a given `latestIndex`. -/
def freshSubset (latest : Int) (batch : List LogEntry) : List LogEntry :=
  (sortEntriesDesc batch).filter fun e => decide (latest < e.index)

/-- Invariant of the merge-visible part of the view state: `latestIndex`
is at least the `-1` sentinel and bounds every held entry, and the list
is sorted descending by index. -/
structure VInv (vs : ViewState) : Prop where
  latest_ge : -1 ≤ vs.latestIndex
  entries_le : ∀ e ∈ vs.entries, e.index ≤ vs.latestIndex
  sorted : List.Sorted entryGE vs.entries

/-- Invariant of a full configuration: the view invariant, plus the
live-tail bookkeeping facts (a poll timer handle is held exactly while
following, and exactly that many interval timers are armed). -/
structure CInv (c : Config) : Prop where
  vinv : VInv c.vs
  timer_eq : c.vs.pollTimer.isSome = c.vs.autoRefresh
  armed_eq : c.armed = if c.vs.autoRefresh then 1 else 0

/-- No two entries with non-negative (parseable) indices share an index. -/
def NodupNonneg (vs : ViewState) : Prop := (nonnegIndices vs.entries).Nodup

/-- Admissibility of an event against a configuration: a successful
response carries a batch with pairwise-distinct non-negative indices
(the store assigns unique indices), and when it answers a backward
(OLDER, non-reset non-newer) request its indices are not already held. -/
def Adm (c : Config) : Ev → Prop
  | .settleOk resp =>
      (nonnegIndices (normBatch resp)).Nodup ∧
      (c.inFlight = some { reset := false, newer := false } →
        ∀ i ∈ nonnegIndices (normBatch resp), i ∉ entryIndices c.vs.entries)
  | _ => True

def AdmTrace : Config → List Ev → Prop
  | _, [] => True
  | c, e :: es => Adm c e ∧ AdmTrace (step c e) es

instance admDecidable (c : Config) : (e : Ev) → Decidable (Adm c e)
  | .settleOk _ => inferInstanceAs (Decidable (_ ∧ _))
  | .call _ _ => isTrue trivial
  | .settleErr => isTrue trivial
  | .purgeOk => isTrue trivial
  | .purgeErr => isTrue trivial
  | .startTail => isTrue trivial
  | .stopTail => isTrue trivial

instance admTraceDecidable : (tr : List Ev) → (c : Config) →
    Decidable (AdmTrace c tr)
  | [], _ => isTrue trivial
  | e :: es, c =>
      @instDecidableAnd _ _ (admDecidable c e)
        (admTraceDecidable es (step c e))

/-- An event that the source deliberately lets rewind `latestIndex`:
a successful purge, a reset call starting while idle (the pre-fetch
clearing), or a settlement whose coalesced pending intent carries
`reset` (the replay performs the same clearing). -/
def ResetIntent (c : Config) : Ev → Prop
  | .purgeOk => True
  | .call r _ => r = true ∧ c.vs.loading = false
  | .settleOk _ => c.inFlight.isSome = true ∧ pendingReset c.vs.pending = true
  | .settleErr => c.inFlight.isSome = true ∧ pendingReset c.vs.pending = true
  | _ => False

instance resetIntentDecidable (c : Config) :
    (e : Ev) → Decidable (ResetIntent c e)
  | .purgeOk => isTrue trivial
  | .call _ _ => inferInstanceAs (Decidable (_ ∧ _))
  | .settleOk _ => inferInstanceAs (Decidable (_ ∧ _))
  | .settleErr => inferInstanceAs (Decidable (_ ∧ _))
  | .purgeErr => isFalse id
  | .startTail => isFalse id
  | .stopTail => isFalse id

/-! ### The settings form (`saveLogSettings`) -/

/-- The logging settings record exchanged with `POST api/logs/settings`
(the shape of `DEFAULT_LOG_SETTINGS`, src/js/config.js:384-390); the
per-source `levels` overrides are an association list. -/
structure LogSettings where
  level : String
  console_level : String
  max_bytes : Int
  backups : Int
  levels : List (String × String)
deriving DecidableEq, Repr

def DEFAULT_LOG_SETTINGS : LogSettings :=
  { level := "INFO"
    console_level := "WARNING"
    max_bytes := 10485760
    backups := 5
    levels := [] }

/-- The stored settings (`logViewerState.settings`, `null` before the
first metadata load) together with the values currently painted in the
settings form by `renderLogSettings` (which reads
`Object.assign({}, DEFAULT_LOG_SETTINGS, settings || {})`). -/
structure SettingsUiState where
  settings : Option LogSettings
  form : LogSettings
deriving DecidableEq, Repr

/-- The effective settings `renderLogSettings` paints: the stored record
when present, else the defaults (rendering DOM elements is omitted; the
`form` field holds the painted values). -/
def renderLogSettings (stored : Option LogSettings) : LogSettings :=
  stored.getD DEFAULT_LOG_SETTINGS

/-- Outcome of the `POST api/logs/settings` round trip as `saveLogSettings`
inspects it: `httpOk` is `response.ok` (2xx), `okFlag` is whether the body
has `ok === true`, and `logging` is the body's `logging` object when
present. -/
structure SettingsResponse where
  httpOk : Bool
  okFlag : Bool
  logging : Option LogSettings
deriving DecidableEq, Repr

/-- `saveLogSettings` (src/js/config.js:827-850): a non-2xx response or a
body without `ok === true` throws, and the catch only sets a status
message — stored settings and the painted form are untouched.  On success
the stored settings become `data.logging || payload` and the form is
re-rendered from them.  (`payload` is whatever `collectLogSettingsPayload`
read from the DOM; it is a parameter here.) -/
def saveLogSettings (payload : LogSettings) (resp : SettingsResponse)
    (st : SettingsUiState) : SettingsUiState :=
  if resp.httpOk && resp.okFlag then
    let stored := some (resp.logging.getD payload)
    { settings := stored, form := renderLogSettings stored }
  else st

/-- The intent stored when a call overlaps an in-flight request:
`reset: reset || (pending && pending.reset)` and likewise for `newer`. -/
def coalesce (r n : Bool) (p : Option Flags) : Flags :=
  { reset := r || pendingReset p, newer := n || pendingNewer p }

/-! ### Concrete material for closed statements -/

/-- A wire entry whose `index` field parses to `n`. -/
def sampleEntry (n : Int) : RawEntry := { index := .int n, cursor := .null }

/-- A wire entry with no parseable index anywhere. -/
def junkEntry : RawEntry := { index := .junk, cursor := .null }

def respA : LogsResponse :=
  { entries := [sampleEntry 3, sampleEntry 5], cursor := some 3,
    has_more := true }

def respB : LogsResponse :=
  { entries := [sampleEntry 2, sampleEntry 1], cursor := some 1,
    has_more := false }

def respC : LogsResponse :=
  { entries := [sampleEntry 5, sampleEntry 7], cursor := none,
    has_more := false }

def respJunk2 : LogsResponse :=
  { entries := [junkEntry, junkEntry], cursor := none, has_more := false }

def respJunk1 : LogsResponse :=
  { entries := [junkEntry], cursor := none, has_more := false }

/-- A reset load answered by `respA` (indices 3 and 5). -/
def resetLoadA : List Ev := [.call true false, .settleOk respA]

/-- A reset load answered by two entries that both fail to normalize. -/
def resetLoadJunk : List Ev := [.call true false, .settleOk respJunk2]

/-! ### Basic facts -/

theorem jsOr0_eq (n : Int) : jsOr0 n = n := by
  unfold jsOr0; split <;> omega

theorem nonnegIndices_append (a b : List LogEntry) :
    nonnegIndices (a ++ b) = nonnegIndices a ++ nonnegIndices b := by
  simp [nonnegIndices, entryIndices]

theorem nonnegIndices_perm {l l' : List LogEntry} (h : List.Perm l l') :
    List.Perm (nonnegIndices l) (nonnegIndices l') :=
  (h.map LogEntry.index).filter _

theorem nonnegIndices_subset (l : List LogEntry) :
    nonnegIndices l ⊆ entryIndices l :=
  (List.filter_sublist _).subset

theorem mem_nonnegIndices {l : List LogEntry} {i : Int} :
    i ∈ nonnegIndices l ↔ (∃ e ∈ l, e.index = i) ∧ 0 ≤ i := by
  simp [nonnegIndices, entryIndices, List.mem_filter]

/-! ### Facts about `foldLatest` -/

theorem foldLatest_nil (a : Int) : foldLatest a [] = a := rfl

theorem foldLatest_cons (a : Int) (e : LogEntry) (l : List LogEntry) :
    foldLatest a (e :: l) = foldLatest (max a e.index) l := by
  unfold foldLatest
  simp only [List.foldl_cons]
  congr 1
  split <;> omega

theorem foldLatest_ge_init : ∀ (l : List LogEntry) (a : Int),
    a ≤ foldLatest a l
  | [], a => le_refl a
  | e :: l, a => by
      rw [foldLatest_cons]
      exact le_trans (le_max_left a e.index) (foldLatest_ge_init l _)

theorem foldLatest_ge_mem : ∀ (l : List LogEntry) (a : Int) (e : LogEntry),
    e ∈ l → e.index ≤ foldLatest a l
  | e' :: l, a, e, h => by
      rw [foldLatest_cons]
      rcases List.mem_cons.mp h with h | h
      · subst h
        exact le_trans (le_max_right a e.index) (foldLatest_ge_init l _)
      · exact foldLatest_ge_mem l _ e h

theorem foldLatest_max_init : ∀ (l : List LogEntry) (a b : Int),
    foldLatest (max a b) l = max a (foldLatest b l)
  | [], a, b => rfl
  | e :: l, a, b => by
      rw [foldLatest_cons, foldLatest_cons, max_assoc,
        foldLatest_max_init l a (max b e.index)]

/-- The recomputed `latestIndex` is exactly the old one clamped up by the
maximum index in the list (the claim's
`max(latestIndex, max(index over entries))`). -/
theorem foldLatest_eq_max (l : List LogEntry) (a : Int) (h : -1 ≤ a) :
    foldLatest a l = max a (foldLatest (-1) l) := by
  have := foldLatest_max_init l a (-1)
  rw [← this, max_eq_left h]

/-! ### Facts about the descending sort -/

theorem sortEntriesDesc_sorted (l : List LogEntry) :
    List.Sorted entryGE (sortEntriesDesc l) :=
  List.sorted_insertionSort entryGE l

theorem sortEntriesDesc_perm (l : List LogEntry) :
    List.Perm (sortEntriesDesc l) l :=
  List.perm_insertionSort entryGE l

theorem sortEntriesDesc_mem {l : List LogEntry} {e : LogEntry} :
    e ∈ sortEntriesDesc l ↔ e ∈ l :=
  (sortEntriesDesc_perm l).mem_iff

/-- `entryGE` is just "index is not smaller", the comparator's `|| 0`
being the identity on integers. -/
theorem entryGE_iff (a b : LogEntry) : entryGE a b ↔ b.index ≤ a.index := by
  unfold entryGE
  rw [jsOr0_eq, jsOr0_eq]

/-! ### State invariants -/

theorem vinv_init : VInv initViewState := by
  constructor <;> simp [initViewState]

theorem cinv_init : CInv initConfig := by
  refine ⟨vinv_init, ?_, ?_⟩ <;> simp [initConfig, initViewState]

theorem nodupNonneg_init : NodupNonneg initViewState := by
  simp [NodupNonneg, initViewState, nonnegIndices, entryIndices]

theorem vinv_clear (vs : ViewState) : VInv (clearViewFields vs) := by
  constructor <;> simp [clearViewFields]

theorem nodup_clear (vs : ViewState) : NodupNonneg (clearViewFields vs) := by
  simp [NodupNonneg, clearViewFields, nonnegIndices, entryIndices]

theorem vinv_merge (f : Flags) (vs : ViewState) (resp : LogsResponse)
    (h : -1 ≤ vs.latestIndex) : VInv (mergeResp f vs resp) := by
  refine ⟨?_, ?_, ?_⟩
  · exact le_trans h (foldLatest_ge_init _ _)
  · intro e he
    exact foldLatest_ge_mem _ _ e he
  · exact sortEntriesDesc_sorted _

/-- The merged entries list is always a permutation of the branch result
described in the spec: fresh-prefix for NEWER, the batch itself for
reset, old-plus-batch for OLDER. -/
theorem mergeResp_entries_perm (f : Flags) (vs : ViewState)
    (resp : LogsResponse) :
    List.Perm (mergeResp f vs resp).entries
      (if f.newer then freshSubset vs.latestIndex (normBatch resp) ++ vs.entries
       else if f.reset then normBatch resp
       else vs.entries ++ normBatch resp) := by
  unfold mergeResp mergedEntries
  dsimp only
  refine (sortEntriesDesc_perm _).trans ?_
  rcases f with ⟨r, n⟩
  cases n <;> cases r <;> simp only [Bool.false_eq_true, if_true, if_false,
    ite_true, ite_false]
  · exact List.Perm.refl _
  · exact List.Perm.refl _
  all_goals {
    unfold freshSubset normBatch
    by_cases hb : (resp.entries.map normalizeEntry).isEmpty
    · rw [List.isEmpty_iff] at hb
      simp [hb, sortEntriesDesc, List.insertionSort]
    · simp only [hb, ite_false]
      by_cases hf : ((sortEntriesDesc (resp.entries.map normalizeEntry)).filter
          fun e => decide (vs.latestIndex < e.index)).isEmpty
      · rw [List.isEmpty_iff] at hf
        simp [hf]
      · simp [hf]
  }

/-- The non-negative indices of the fresh subset are duplicate-free
whenever the batch's are (it is a filtered sublist of a sort of it). -/
theorem nodup_freshSubset (latest : Int) (batch : List LogEntry)
    (hb : (nonnegIndices batch).Nodup) :
    (nonnegIndices (freshSubset latest batch)).Nodup := by
  have hsub : List.Sublist (freshSubset latest batch)
      (sortEntriesDesc batch) := List.filter_sublist _
  have hsub2 : List.Sublist (nonnegIndices (freshSubset latest batch))
      (nonnegIndices (sortEntriesDesc batch)) :=
    (hsub.map LogEntry.index).filter _
  have hpb : (nonnegIndices (sortEntriesDesc batch)).Nodup := by
    rw [(nonnegIndices_perm (sortEntriesDesc_perm _)).nodup_iff]
    exact hb
  exact hsub2.nodup hpb

/-- Every fresh entry really is strictly newer than `latest`. -/
theorem freshSubset_gt (latest : Int) (batch : List LogEntry) :
    ∀ e ∈ freshSubset latest batch, latest < e.index := by
  intro e he
  unfold freshSubset at he
  exact of_decide_eq_true (List.mem_filter.mp he).2

theorem nodup_merge (f : Flags) (vs : ViewState) (resp : LogsResponse)
    (hv : VInv vs) (hn : NodupNonneg vs)
    (hb : (nonnegIndices (normBatch resp)).Nodup)
    (hdisj : f.reset = false → f.newer = false →
      ∀ i ∈ nonnegIndices (normBatch resp), i ∉ entryIndices vs.entries) :
    NodupNonneg (mergeResp f vs resp) := by
  have hperm := nonnegIndices_perm (mergeResp_entries_perm f vs resp)
  rw [NodupNonneg, hperm.nodup_iff]
  rcases f with ⟨r, n⟩
  cases n
  · cases r
    · -- OLDER append: old ++ batch, disjoint by hypothesis
      rw [if_neg (by simp), if_neg (by simp),
        nonnegIndices_append, List.nodup_append]
      refine ⟨hn, hb, ?_⟩
      intro i hi hib
      exact hdisj rfl rfl i hib (nonnegIndices_subset _ hi)
    · -- reset: the batch alone
      rw [if_neg (by simp), if_pos rfl]
      exact hb
  · -- NEWER: fresh ++ old, fresh all above latestIndex, old all below
    rw [if_pos rfl, nonnegIndices_append, List.nodup_append]
    refine ⟨nodup_freshSubset _ _ hb, hn, ?_⟩
    intro i hif hio
    rcases mem_nonnegIndices.mp hif with ⟨⟨e, hef, hei⟩, _⟩
    rcases mem_nonnegIndices.mp hio with ⟨⟨e', heo, hei'⟩, _⟩
    have hgt : vs.latestIndex < e.index := freshSubset_gt _ _ e hef
    have hle : e'.index ≤ vs.latestIndex := hv.entries_le e' heo
    omega

/-! ### Field-preservation facts -/

theorem mergeResp_pending (f : Flags) (vs : ViewState) (resp : LogsResponse) :
    (mergeResp f vs resp).pending = vs.pending := rfl

theorem mergeResp_loading (f : Flags) (vs : ViewState) (resp : LogsResponse) :
    (mergeResp f vs resp).loading = vs.loading := rfl

theorem mergeResp_autoRefresh (f : Flags) (vs : ViewState)
    (resp : LogsResponse) : (mergeResp f vs resp).autoRefresh
      = vs.autoRefresh := rfl

theorem mergeResp_pollTimer (f : Flags) (vs : ViewState)
    (resp : LogsResponse) : (mergeResp f vs resp).pollTimer = vs.pollTimer :=
  rfl

theorem mergeResp_nextCursor (f : Flags) (vs : ViewState)
    (resp : LogsResponse) : (mergeResp f vs resp).nextCursor = resp.cursor :=
  rfl

theorem mergeResp_hasMore (f : Flags) (vs : ViewState)
    (resp : LogsResponse) : (mergeResp f vs resp).hasMore = resp.has_more :=
  rfl

theorem callPath_pollTimer (r n : Bool) (c : Config) :
    (callPath r n c).vs.pollTimer = c.vs.pollTimer := by
  unfold callPath
  split
  · rfl
  · dsimp only
    split <;> rfl

theorem callPath_autoRefresh (r n : Bool) (c : Config) :
    (callPath r n c).vs.autoRefresh = c.vs.autoRefresh := by
  unfold callPath
  split
  · rfl
  · dsimp only
    split <;> rfl

theorem callPath_armed (r n : Bool) (c : Config) :
    (callPath r n c).armed = c.armed := by
  unfold callPath
  split <;> rfl

theorem callPath_latestIndex_of_not_reset (n : Bool) (c : Config) :
    (callPath false n c).vs.latestIndex = c.vs.latestIndex := by
  unfold callPath
  split <;> rfl

/-! ### Invariant preservation, step by step -/

theorem vinv_callPath (r n : Bool) (c : Config) (h : VInv c.vs) :
    VInv (callPath r n c).vs := by
  unfold callPath
  split
  · exact ⟨h.latest_ge, h.entries_le, h.sorted⟩
  · dsimp only
    split
    · exact ⟨by simp [clearViewFields], by simp [clearViewFields],
        by simp [clearViewFields]⟩
    · exact ⟨h.latest_ge, h.entries_le, h.sorted⟩

theorem cinv_callPath (r n : Bool) (c : Config) (h : CInv c) :
    CInv (callPath r n c) := by
  refine ⟨vinv_callPath r n c h.vinv, ?_, ?_⟩
  · rw [callPath_pollTimer, callPath_autoRefresh]
    exact h.timer_eq
  · rw [callPath_armed, callPath_autoRefresh]
    exact h.armed_eq

theorem nodup_callPath (r n : Bool) (c : Config) (h : NodupNonneg c.vs) :
    NodupNonneg (callPath r n c).vs := by
  unfold callPath
  split
  · exact h
  · dsimp only
    split
    · exact nodup_clear c.vs
    · exact h

theorem cinv_settle (c : Config) (result : Option LogsResponse)
    (h : CInv c) : CInv (settlePath c result) := by
  unfold settlePath
  cases hIn : c.inFlight with
  | none => exact h
  | some f =>
      cases result with
      | none =>
          dsimp only
          split
          · exact ⟨⟨h.vinv.latest_ge, h.vinv.entries_le, h.vinv.sorted⟩,
              h.timer_eq, h.armed_eq⟩
          · exact cinv_callPath _ _ _
              ⟨⟨h.vinv.latest_ge, h.vinv.entries_le, h.vinv.sorted⟩,
                h.timer_eq, h.armed_eq⟩
      | some resp =>
          dsimp only
          have hv1 := vinv_merge f c.vs resp h.vinv.latest_ge
          split
          · exact ⟨⟨hv1.latest_ge, hv1.entries_le, hv1.sorted⟩,
              h.timer_eq, h.armed_eq⟩
          · exact cinv_callPath _ _ _
              ⟨⟨hv1.latest_ge, hv1.entries_le, hv1.sorted⟩,
                h.timer_eq, h.armed_eq⟩

theorem nodup_settle (c : Config) (result : Option LogsResponse)
    (h : CInv c) (hn : NodupNonneg c.vs)
    (hb : ∀ resp, result = some resp →
      (nonnegIndices (normBatch resp)).Nodup)
    (hd : ∀ resp, result = some resp →
      c.inFlight = some { reset := false, newer := false } →
      ∀ i ∈ nonnegIndices (normBatch resp), i ∉ entryIndices c.vs.entries) :
    NodupNonneg (settlePath c result).vs := by
  unfold settlePath
  cases hIn : c.inFlight with
  | none => exact hn
  | some f =>
      cases result with
      | none =>
          dsimp only
          split
          · exact hn
          · exact nodup_callPath _ _ _ hn
      | some resp =>
          dsimp only
          have hm : NodupNonneg (mergeResp f c.vs resp) := by
            refine nodup_merge f c.vs resp h.vinv hn (hb resp rfl) ?_
            intro hr hnw
            have hf : f = { reset := false, newer := false } := by
              rcases f with ⟨fr, fn⟩
              have hr' : fr = false := hr
              have hnw' : fn = false := hnw
              rw [hr', hnw']
            exact hd resp rfl (hf ▸ hIn)
          split
          · exact hm
          · exact nodup_callPath _ _ _ hm

theorem cinv_stop (c : Config) (h : CInv c) : CInv (stopTailFun c) := by
  unfold stopTailFun
  split
  · rename_i ha
    dsimp only
    split
    · rename_i t hpt
      refine ⟨⟨h.vinv.latest_ge, h.vinv.entries_le, h.vinv.sorted⟩, ?_, ?_⟩
      · simp
      · have h2 := h.armed_eq
        rw [ha] at h2
        simp [h2]
    · rename_i hpt
      -- unreachable given the invariant: following but no timer handle
      have h2 := h.timer_eq
      rw [ha, hpt] at h2
      simp at h2
  · exact h

theorem cinv_start (c : Config) (h : CInv c) : CInv (startTailFun c) := by
  unfold startTailFun
  split
  · exact h
  · rename_i ha
    have ha' : c.vs.autoRefresh = false := by
      cases hx : c.vs.autoRefresh
      · rfl
      · exact absurd hx ha
    dsimp only
    have hv0 : VInv (callPath false true
        { c with vs := { c.vs with autoRefresh := true } }).vs :=
      vinv_callPath _ _ _
        ⟨h.vinv.latest_ge, h.vinv.entries_le, h.vinv.sorted⟩
    refine ⟨⟨hv0.latest_ge, hv0.entries_le, hv0.sorted⟩, ?_, ?_⟩
    · rw [callPath_autoRefresh]
      rfl
    · rw [callPath_armed, callPath_autoRefresh]
      have h2 := h.armed_eq
      rw [ha'] at h2
      simp [h2]

theorem cinv_purge (c : Config) (h : CInv c) : CInv (purgeOkFun c) := by
  have h1 := cinv_stop c h
  exact ⟨vinv_clear _, h1.timer_eq, h1.armed_eq⟩

theorem nodup_stop (c : Config) (h : NodupNonneg c.vs) :
    NodupNonneg (stopTailFun c).vs := by
  unfold stopTailFun
  split
  · dsimp only
    split
    · exact h
    · exact h
  · exact h

theorem nodup_start (c : Config) (h : NodupNonneg c.vs) :
    NodupNonneg (startTailFun c).vs := by
  unfold startTailFun
  split
  · exact h
  · dsimp only
    exact nodup_callPath false true
      { c with vs := { c.vs with autoRefresh := true } } h

/-! ### The machine invariant over arbitrary traces -/

theorem cinv_step (c : Config) (e : Ev) (h : CInv c) : CInv (step c e) := by
  cases e with
  | call r n => exact cinv_callPath r n c h
  | settleOk resp => exact cinv_settle c (some resp) h
  | settleErr => exact cinv_settle c none h
  | purgeOk => exact cinv_purge c h
  | purgeErr => exact h
  | startTail => exact cinv_start c h
  | stopTail => exact cinv_stop c h

theorem cinv_run : ∀ (tr : List Ev) (c : Config), CInv c → CInv (run c tr)
  | [], _, h => h
  | e :: tr, c, h => cinv_run tr (step c e) (cinv_step c e h)

theorem nodup_step (c : Config) (e : Ev) (h : CInv c)
    (hn : NodupNonneg c.vs) (ha : Adm c e) : NodupNonneg (step c e).vs := by
  cases e with
  | call r n => exact nodup_callPath r n c hn
  | settleOk resp =>
      refine nodup_settle c (some resp) h hn ?_ ?_
      · intro r hr
        cases hr
        exact ha.1
      · intro r hr hf
        cases hr
        exact ha.2 hf
  | settleErr =>
      refine nodup_settle c none h hn ?_ ?_
      · intro r hr
        exact absurd hr (by simp)
      · intro r hr
        exact absurd hr (by simp)
  | purgeOk => exact nodup_clear _
  | purgeErr => exact hn
  | startTail => exact nodup_start c hn
  | stopTail => exact nodup_stop c hn

theorem nodup_run : ∀ (tr : List Ev) (c : Config), CInv c →
    NodupNonneg c.vs → AdmTrace c tr → NodupNonneg (run c tr).vs
  | [], _, _, hn, _ => hn
  | e :: tr, c, h, hn, ha =>
      nodup_run tr (step c e) (cinv_step c e h)
        (nodup_step c e h hn ha.1) ha.2

/-! ### Behaviour of live-tail stop/start on individual fields -/

theorem stopTail_autoRefresh (c : Config) :
    (stopTailFun c).vs.autoRefresh = false := by
  unfold stopTailFun
  split
  · dsimp only
    split <;> rfl
  · rename_i h
    cases hx : c.vs.autoRefresh
    · rfl
    · exact absurd hx h

theorem stopTail_pollTimer (c : Config)
    (h : c.vs.pollTimer.isSome = c.vs.autoRefresh) :
    (stopTailFun c).vs.pollTimer = none := by
  unfold stopTailFun
  split
  · dsimp only
    split
    · rfl
    · rename_i hpt
      exact hpt
  · rename_i ha
    cases hx : c.vs.autoRefresh
    · cases hpt : c.vs.pollTimer with
      | none => rfl
      | some t => rw [hpt, hx] at h; simp at h
    · exact absurd hx ha

theorem startTail_latestIndex (c : Config) :
    (startTailFun c).vs.latestIndex = c.vs.latestIndex := by
  unfold startTailFun
  split
  · rfl
  · dsimp only
    exact callPath_latestIndex_of_not_reset true _

theorem stopTail_latestIndex (c : Config) :
    (stopTailFun c).vs.latestIndex = c.vs.latestIndex := by
  unfold stopTailFun
  split
  · dsimp only
    split <;> rfl
  · rfl

/-- `latestIndex` after a merge is the old value clamped up over the
resulting entries list. -/
theorem mergeResp_latestIndex_eq (f : Flags) (vs : ViewState)
    (resp : LogsResponse) (h : -1 ≤ vs.latestIndex) :
    (mergeResp f vs resp).latestIndex
      = max vs.latestIndex (foldLatest (-1) (mergeResp f vs resp).entries) :=
  foldLatest_eq_max _ _ h

/-- Settling a request never lowers `latestIndex` as long as the pending
intent (replayed from the `finally` block) does not carry `reset`. -/
theorem settle_latest_ge (c : Config) (result : Option LogsResponse)
    (hp : pendingReset c.vs.pending = false) :
    c.vs.latestIndex ≤ (settlePath c result).vs.latestIndex := by
  unfold settlePath
  cases hIn : c.inFlight with
  | none => exact le_rfl
  | some f =>
      cases result with
      | none =>
          dsimp only
          split
          · exact le_rfl
          · rename_i p hp2
            have hp2' : c.vs.pending = some p := hp2
            rw [hp2'] at hp
            have hpr : p.reset = false := hp
            rw [hpr, callPath_latestIndex_of_not_reset]
      | some resp =>
          dsimp only
          have hbase : c.vs.latestIndex
              ≤ (mergeResp f c.vs resp).latestIndex :=
            foldLatest_ge_init _ _
          split
          · exact hbase
          · rename_i p hp2
            have hp2' : (mergeResp f c.vs resp).pending = some p := hp2
            rw [mergeResp_pending] at hp2'
            rw [hp2'] at hp
            have hpr : p.reset = false := hp
            rw [hpr, callPath_latestIndex_of_not_reset]
            exact hbase

/-! ### The claims -/

/-- C1: single-flight coalescing of `loadLogs`.  (1) A call arriving
while a request is in flight issues no request: the configuration is
unchanged except that the pending intent becomes the OR of the call's
`reset`/`newer` flags with any previously pending flags.  (2) When the
in-flight request settles — successfully (`result = some resp`) or not
(`result = none`) — with an intent pending, exactly one replay of exactly
that intent launches: it becomes the sole in-flight request and the
pending slot is cleared.  (3) If an OLDER page is in flight and a second
call asks for `reset = true` before it settles, then after the replay
settles the state reflects a pure reset load of the replay's response:
entries, cursor, has-more and latestIndex are functions of that second
response alone, not an appended older page. -/
theorem loadLogs_single_flight_coalescing :
    (∀ (c : Config) (r n : Bool), c.vs.loading = true →
      step c (.call r n) = { c with vs :=
        { c.vs with pending := some (coalesce r n c.vs.pending) } }) ∧
    (∀ (c : Config) (f p : Flags) (result : Option LogsResponse),
      c.inFlight = some f → c.vs.pending = some p →
      (settlePath c result).inFlight = some p ∧
      (settlePath c result).vs.pending = none) ∧
    (∀ (c : Config) (r₁ r₂ : LogsResponse),
      c.vs.loading = false → c.vs.pending = none →
      (run c [.call false false, .call true false,
        .settleOk r₁, .settleOk r₂]).vs.entries
          = sortEntriesDesc (normBatch r₂) ∧
      (run c [.call false false, .call true false,
        .settleOk r₁, .settleOk r₂]).vs.nextCursor = r₂.cursor ∧
      (run c [.call false false, .call true false,
        .settleOk r₁, .settleOk r₂]).vs.hasMore = r₂.has_more ∧
      (run c [.call false false, .call true false,
        .settleOk r₁, .settleOk r₂]).vs.latestIndex
          = foldLatest (-1) (sortEntriesDesc (normBatch r₂))) := by
  refine ⟨?_, ?_, ?_⟩
  · intro c r n h
    show callPath r n c = _
    unfold callPath
    rw [if_pos h]
    rfl
  · intro c f p result hIn hp
    rcases p with ⟨pr, pn⟩
    unfold settlePath
    rw [hIn]
    cases result with
    | none =>
        dsimp only
        rw [hp]
        dsimp only
        cases pr <;> exact ⟨rfl, rfl⟩
    | some resp =>
        dsimp only
        rw [mergeResp_pending, hp]
        dsimp only
        cases pr <;> exact ⟨rfl, rfl⟩
  · intro c r₁ r₂ h1 h2
    have s1 : step c (.call false false)
        = { c with vs := { c.vs with loading := true }, inFlight := some (Flags.mk false false) } := by
      show callPath false false c = _
      unfold callPath
      rw [if_neg (by rw [h1]; exact Bool.false_ne_true)]
      rfl
    have s2 : step { c with vs := { c.vs with loading := true }, inFlight := some (Flags.mk false false) } (.call true false)
        = { c with vs := { c.vs with loading := true, pending := some (Flags.mk true false) }, inFlight := some (Flags.mk false false) } := by
      show callPath true false _ = _
      unfold callPath
      rw [if_pos rfl]
      simp [pendingReset, pendingNewer, h2]
    have hrun : run c [.call false false, .call true false,
        .settleOk r₁, .settleOk r₂]
        = step (step (step (step c (.call false false))
            (.call true false)) (.settleOk r₁)) (.settleOk r₂) := rfl
    rw [hrun, s1, s2]
    have s3 : step { c with vs := { c.vs with loading := true, pending := some (Flags.mk true false) }, inFlight := some (Flags.mk false false) } (.settleOk r₁)
        = { c with vs := { c.vs with loading := true, pending := none, entries := [], nextCursor := none, hasMore := false, latestIndex := -1 }, inFlight := some (Flags.mk true false) } := by
      simp only [step]
      simp [settlePath, callPath, clearViewFields, mergeResp_pending,
        mergeResp_loading, mergeResp_autoRefresh, mergeResp_pollTimer]
    rw [s3]
    refine ⟨?_, ?_, ?_, ?_⟩ <;>
      simp [step, settlePath, mergeResp, mergedEntries, normBatch]

/-- Witness for C1: the scenario's hypotheses hold at the initial state
and the conclusion evaluates there. -/
theorem loadLogs_single_flight_coalescing_witness :
    (initConfig.vs.loading = false ∧ initConfig.vs.pending = none) ∧
    ((run initConfig [.call false false, .call true false,
        .settleOk respA, .settleOk respC]).vs.entries
        = sortEntriesDesc (normBatch respC) ∧
      (run initConfig [.call false false, .call true false,
        .settleOk respA, .settleOk respC]).vs.nextCursor = respC.cursor ∧
      (run initConfig [.call false false, .call true false,
        .settleOk respA, .settleOk respC]).vs.hasMore = respC.has_more ∧
      (run initConfig [.call false false, .call true false,
        .settleOk respA, .settleOk respC]).vs.latestIndex
        = foldLatest (-1) (sortEntriesDesc (normBatch respC))) :=
  ⟨⟨rfl, rfl⟩,
    loadLogs_single_flight_coalescing.2.2 initConfig respA respC rfl rfl⟩

/-- C2: live-tail deduplication.  A NEWER merge keeps from the fetched
batch exactly the entries whose index is strictly greater than the
current `latestIndex` — the merged list is a permutation of that fresh
subset prepended to the held entries, every fresh entry exceeding
`latestIndex` — and along every admissible trace (batches with distinct
store indices; backward pages disjoint from what is held) the
non-negative indices in `entries` stay pairwise distinct after every
step. -/
theorem loadLogs_newer_dedup_nodup :
    (∀ (r : Bool) (vs : ViewState) (resp : LogsResponse),
      List.Perm (mergeResp (Flags.mk r true) vs resp).entries
        (freshSubset vs.latestIndex (normBatch resp) ++ vs.entries) ∧
      ∀ e ∈ freshSubset vs.latestIndex (normBatch resp),
        vs.latestIndex < e.index) ∧
    (∀ tr : List Ev, AdmTrace initConfig tr →
      (nonnegIndices (run initConfig tr).vs.entries).Nodup) := by
  constructor
  · intro r vs resp
    refine ⟨?_, freshSubset_gt _ _⟩
    have h := mergeResp_entries_perm (Flags.mk r true) vs resp
    simpa using h
  · intro tr ha
    exact nodup_run tr initConfig cinv_init nodupNonneg_init ha

/-- Witness for C2: a concrete admissible trace — reset load of indices
3 and 5 followed by a live-tail tick answering 5 and 7 — is admissible
and leaves no duplicate index. -/
theorem loadLogs_newer_dedup_nodup_witness :
    AdmTrace initConfig [.call true false, .settleOk respA,
      .call false true, .settleOk respC] ∧
    (nonnegIndices (run initConfig [.call true false, .settleOk respA,
      .call false true, .settleOk respC]).vs.entries).Nodup :=
  ⟨by decide, loadLogs_newer_dedup_nodup.2 _ (by decide)⟩

/-- C3 counterexample: a reset load whose two entries both fail to
normalize produces the index list `[-1, -1]`, which is not strictly
descending — strict sortedness fails for entries with index `-1`. -/
theorem entries_strict_sorted_counterexample :
    entryIndices (run initConfig resetLoadJunk).vs.entries = [-1, -1] ∧
    ¬ List.Sorted (fun a b : LogEntry => b.index < a.index)
        (run initConfig resetLoadJunk).vs.entries := by
  constructor
  · decide
  · decide

/-- C3 (amended): after every merge — indeed in every reachable state —
`entries` is sorted descending by `index` in the weak sense (each entry's
index is ≤ every earlier entry's index).  Strictness holds between
entries with distinct indices; entries sharing index `-1` may tie, as the
counterexample shows. -/
theorem entries_sorted_desc_after_merge (tr : List Ev) :
    List.Sorted (fun a b : LogEntry => b.index ≤ a.index)
      (run initConfig tr).vs.entries := by
  have h := (cinv_run tr initConfig cinv_init).vinv.sorted
  exact h.imp fun hab => (entryGE_iff _ _).mp hab

/-- C4 counterexample: failure atomicity does not hold for reset calls.
From a reachable state holding entry indices 5 and 3 (`latestIndex = 5`),
a `loadLogs({reset: true})` call whose fetch fails leaves
`entries = []` and `latestIndex = -1`: the pre-fetch clearing is not
rolled back. -/
theorem reset_failure_not_atomic_counterexample :
    (run initConfig resetLoadA).vs.entries ≠ [] ∧
    (run initConfig resetLoadA).vs.latestIndex = 5 ∧
    (run (run initConfig resetLoadA) [.call true false, .settleErr]).vs.entries
      = [] ∧
    (run (run initConfig resetLoadA)
      [.call true false, .settleErr]).vs.latestIndex = -1 := by
  refine ⟨by decide, by decide, by decide, by decide⟩

/-- C4 (amended): for a call issued while idle with no pending intent,
if the fetch fails then: with `reset = false` (OLDER page or live-tail
tick) the fields `entries`, `nextCursor`, `hasMore` and `latestIndex`
are exactly as before the call; with `reset = true` those fields were
cleared synchronously before the fetch, and the failure leaves them in
that cleared state (`[]`, `none`, `false`, `-1`) rather than restoring
the pre-call values. -/
theorem loadLogs_failure_atomicity_amended :
    (∀ (c : Config) (n : Bool), c.vs.loading = false →
      c.vs.pending = none →
      (run c [.call false n, .settleErr]).vs.entries = c.vs.entries ∧
      (run c [.call false n, .settleErr]).vs.nextCursor = c.vs.nextCursor ∧
      (run c [.call false n, .settleErr]).vs.hasMore = c.vs.hasMore ∧
      (run c [.call false n, .settleErr]).vs.latestIndex
        = c.vs.latestIndex) ∧
    (∀ (c : Config) (n : Bool), c.vs.loading = false →
      c.vs.pending = none →
      (run c [.call true n, .settleErr]).vs.entries = [] ∧
      (run c [.call true n, .settleErr]).vs.nextCursor = none ∧
      (run c [.call true n, .settleErr]).vs.hasMore = false ∧
      (run c [.call true n, .settleErr]).vs.latestIndex = -1) := by
  constructor
  · intro c n h1 h2
    refine ⟨?_, ?_, ?_, ?_⟩ <;>
      simp [run, step, callPath, settlePath, clearViewFields, h1, h2]
  · intro c n h1 h2
    refine ⟨?_, ?_, ?_, ?_⟩ <;>
      simp [run, step, callPath, settlePath, clearViewFields, h1, h2]

/-- Witness for C4 (amended): both parts applied at the reachable state
holding indices 5 and 3. -/
theorem loadLogs_failure_atomicity_amended_witness :
    ((run initConfig resetLoadA).vs.loading = false ∧
      (run initConfig resetLoadA).vs.pending = none) ∧
    ((run (run initConfig resetLoadA) [.call false false,
        .settleErr]).vs.entries = (run initConfig resetLoadA).vs.entries ∧
      (run (run initConfig resetLoadA) [.call false false,
        .settleErr]).vs.nextCursor
        = (run initConfig resetLoadA).vs.nextCursor ∧
      (run (run initConfig resetLoadA) [.call false false,
        .settleErr]).vs.hasMore = (run initConfig resetLoadA).vs.hasMore ∧
      (run (run initConfig resetLoadA) [.call false false,
        .settleErr]).vs.latestIndex
        = (run initConfig resetLoadA).vs.latestIndex) ∧
    (run (run initConfig resetLoadA) [.call true false,
      .settleErr]).vs.entries = [] :=
  ⟨⟨rfl, rfl⟩,
    loadLogs_failure_atomicity_amended.1 _ false rfl rfl,
    (loadLogs_failure_atomicity_amended.2 _ false rfl rfl).1⟩

/-- C5 counterexample: `latestIndex` is not monotone across every
operation.  After a reset load of indices 3 and 5 it is 5; a successful
purge rewinds it to -1. -/
theorem latestIndex_monotonic_counterexample :
    (run initConfig resetLoadA).vs.latestIndex = 5 ∧
    (run initConfig (resetLoadA ++ [.purgeOk])).vs.latestIndex = -1 ∧
    ¬ ((run initConfig resetLoadA).vs.latestIndex
      ≤ (run initConfig (resetLoadA ++ [.purgeOk])).vs.latestIndex) := by
  refine ⟨by decide, by decide, by decide⟩

/-- C5 (amended): `latestIndex` never decreases across any step other
than the ones the source deliberately lets rewind it — a successful
purge, a reset call starting while idle, or a settlement replaying a
pending intent that carries `reset` — and each of those reinitializes it
to -1 (before any refetch).  After every merge it equals
`max(latestIndex before the merge, max index over the merged entries)`. -/
theorem latestIndex_monotonic_amended :
    (∀ (c : Config) (e : Ev), ¬ ResetIntent c e →
      c.vs.latestIndex ≤ (step c e).vs.latestIndex) ∧
    (∀ (c : Config) (n : Bool), c.vs.loading = false →
      (step c (.call true n)).vs.latestIndex = -1) ∧
    (∀ c : Config, (step c .purgeOk).vs.latestIndex = -1) ∧
    (∀ (f : Flags) (vs : ViewState) (resp : LogsResponse),
      -1 ≤ vs.latestIndex →
      (mergeResp f vs resp).latestIndex
        = max vs.latestIndex
            (foldLatest (-1) (mergeResp f vs resp).entries)) := by
  refine ⟨?_, ?_, ?_, ?_⟩
  · intro c e hni
    cases e with
    | call r n =>
        by_cases hl : c.vs.loading = true
        · show c.vs.latestIndex ≤ (callPath r n c).vs.latestIndex
          unfold callPath
          rw [if_pos hl]
        · have hl' : c.vs.loading = false := by
            cases hx : c.vs.loading
            · rfl
            · exact absurd hx hl
          cases hr : r with
          | false =>
              subst hr
              show c.vs.latestIndex ≤ (callPath false n c).vs.latestIndex
              rw [callPath_latestIndex_of_not_reset]
          | true => exact absurd ⟨hr, hl'⟩ hni
    | settleOk resp =>
        cases hIn : c.inFlight with
        | none =>
            show c.vs.latestIndex ≤ (settlePath c (some resp)).vs.latestIndex
            unfold settlePath
            rw [hIn]
        | some f =>
            have hpr : pendingReset c.vs.pending = false := by
              cases hx : pendingReset c.vs.pending
              · rfl
              · exact absurd ⟨by rw [hIn]; rfl, hx⟩ hni
            exact settle_latest_ge c (some resp) hpr
    | settleErr =>
        cases hIn : c.inFlight with
        | none =>
            show c.vs.latestIndex ≤ (settlePath c none).vs.latestIndex
            unfold settlePath
            rw [hIn]
        | some f =>
            have hpr : pendingReset c.vs.pending = false := by
              cases hx : pendingReset c.vs.pending
              · rfl
              · exact absurd ⟨by rw [hIn]; rfl, hx⟩ hni
            exact settle_latest_ge c none hpr
    | purgeOk => exact absurd trivial hni
    | purgeErr => exact le_rfl
    | startTail => exact le_of_eq (startTail_latestIndex c).symm
    | stopTail => exact le_of_eq (stopTail_latestIndex c).symm
  · intro c n h
    show (callPath true n c).vs.latestIndex = -1
    unfold callPath
    rw [if_neg (by rw [h]; exact Bool.false_ne_true)]
    rfl
  · intro c
    rfl
  · exact fun f vs resp h => mergeResp_latestIndex_eq f vs resp h

/-- Witness for C5 (amended): a non-reset live-tail call from the
initial state does not lower `latestIndex`, and the merge equation holds
at a concrete response. -/
theorem latestIndex_monotonic_amended_witness :
    (¬ ResetIntent initConfig (.call false true) ∧
      initConfig.vs.latestIndex
        ≤ (step initConfig (.call false true)).vs.latestIndex) ∧
    (-1 ≤ initViewState.latestIndex ∧
      (mergeResp (Flags.mk true false) initViewState respA).latestIndex
        = max initViewState.latestIndex
            (foldLatest (-1)
              (mergeResp (Flags.mk true false) initViewState respA).entries)) :=
  ⟨⟨by decide, latestIndex_monotonic_amended.1 _ _ (by decide)⟩,
    ⟨by decide,
      latestIndex_monotonic_amended.2.2.2 _ initViewState respA (by decide)⟩⟩

/-- C6: a successful purge resets the view cleanly — `entries = []`,
`nextCursor = none`, `hasMore = false`, `latestIndex = -1`, live tail is
stopped — and (in every reachable state) the poll timer handle is
cleared.  A failed purge changes nothing at all (only an error status is
shown). -/
theorem purge_resets_cleanly :
    (∀ c : Config,
      (step c .purgeOk).vs.entries = [] ∧
      (step c .purgeOk).vs.nextCursor = none ∧
      (step c .purgeOk).vs.hasMore = false ∧
      (step c .purgeOk).vs.latestIndex = -1 ∧
      (step c .purgeOk).vs.autoRefresh = false ∧
      step c .purgeErr = c) ∧
    (∀ tr : List Ev,
      (step (run initConfig tr) .purgeOk).vs.pollTimer = none) := by
  constructor
  · intro c
    refine ⟨rfl, rfl, rfl, rfl, ?_, rfl⟩
    exact stopTail_autoRefresh c
  · intro tr
    have h := cinv_run tr initConfig cinv_init
    exact stopTail_pollTimer _ h.timer_eq

/-- C7 counterexample: an entry with no parseable index is assigned
index -1 by `normalizeEntry`, but a NEWER (live-tail) merge does not
retain it — the freshness filter `index > latestIndex ≥ -1` drops it, so
it does not display after that merge. -/
theorem normalize_minus_one_retention_counterexample :
    (normalizeEntry junkEntry).index = -1 ∧
    (run initConfig [.call false true, .settleOk respJunk1]).vs.entries
      = [] ∧
    (mergeResp (Flags.mk false true) initViewState respJunk1).entries
      = [] := by
  refine ⟨by decide, by decide, by decide⟩

/-- C7 (amended): `normalizeEntry` parses an integer from the `index`
field when it is non-null, otherwise from `cursor`; a finite parse ≥ 0
becomes the entry's index with `cursor` set to its (string) form, and
anything else yields index -1.  Entries assigned index -1 are retained by
reset and OLDER merges, but a NEWER merge drops them: whenever
`latestIndex ≥ -1` (always, in reachable states) the count of index -1
entries is unchanged by a NEWER merge. -/
theorem normalizeEntry_spec_amended :
    (∀ e : RawEntry,
      (normalizeEntry e).index
        = (match jparse (selField e) with
           | some n => if 0 ≤ n then n else -1
           | none => -1) ∧
      ∀ n : Int, jparse (selField e) = some n → 0 ≤ n →
        (normalizeEntry e).cursor = JField.int n) ∧
    (∀ (r : Bool) (vs : ViewState) (resp : LogsResponse),
      ∀ e ∈ normBatch resp,
        e ∈ (mergeResp (Flags.mk r false) vs resp).entries) ∧
    (∀ (r : Bool) (vs : ViewState) (resp : LogsResponse),
      -1 ≤ vs.latestIndex →
      ((mergeResp (Flags.mk r true) vs resp).entries.filter
          fun e => decide (e.index = -1)).length
        = (vs.entries.filter fun e => decide (e.index = -1)).length) := by
  refine ⟨?_, ?_, ?_⟩
  · intro e
    constructor
    · cases h : jparse (selField e) with
      | none => simp [normalizeEntry, h]
      | some n =>
          simp only [normalizeEntry, h]
          split <;> rfl
    · intro n hn hge
      simp [normalizeEntry, hn, hge]
  · intro r vs resp e he
    have hperm := mergeResp_entries_perm (Flags.mk r false) vs resp
    rw [hperm.mem_iff]
    cases r with
    | true => simpa using he
    | false =>
        simp
        exact Or.inr he
  · intro r vs resp h
    have hperm := (mergeResp_entries_perm (Flags.mk r true) vs resp).filter
      fun e => decide (e.index = -1)
    rw [hperm.length_eq]
    rw [if_pos rfl, List.filter_append]
    have hfresh : (freshSubset vs.latestIndex (normBatch resp)).filter
        (fun e => decide (e.index = -1)) = [] := by
      rw [List.filter_eq_nil_iff]
      intro e he
      have := freshSubset_gt vs.latestIndex (normBatch resp) e he
      simp only [decide_eq_true_eq]
      omega
    rw [hfresh]
    rfl

/-- Witness for C7 (amended): the NEWER-merge conjunct applied to the
initial view state and a batch of two unparseable entries. -/
theorem normalizeEntry_spec_amended_witness :
    (-1 ≤ initViewState.latestIndex) ∧
    ((mergeResp (Flags.mk false true) initViewState respJunk2).entries.filter
        fun e => decide (e.index = -1)).length
      = (initViewState.entries.filter
          fun e => decide (e.index = -1)).length :=
  ⟨by decide,
    normalizeEntry_spec_amended.2.2 false initViewState respJunk2 (by decide)⟩

/-- C8: after every successful merge, whatever the request's direction,
`nextCursor` is set to the response's `cursor` field (null when absent)
and `hasMore` to the boolean coercion of its `has_more` field; at the
machine level, a settled request with no pending intent leaves exactly
those values in the view — so a forward live-tail response overwrites the
cursor previously saved for backward paging. -/
theorem cursor_hasMore_verbatim :
    (∀ (f : Flags) (vs : ViewState) (resp : LogsResponse),
      (mergeResp f vs resp).nextCursor = resp.cursor ∧
      (mergeResp f vs resp).hasMore = resp.has_more) ∧
    (∀ (c : Config) (f : Flags) (resp : LogsResponse),
      c.inFlight = some f → c.vs.pending = none →
      (settlePath c (some resp)).vs.nextCursor = resp.cursor ∧
      (settlePath c (some resp)).vs.hasMore = resp.has_more) := by
  constructor
  · exact fun f vs resp => ⟨rfl, rfl⟩
  · intro c f resp hIn hp
    unfold settlePath
    rw [hIn]
    dsimp only
    rw [mergeResp_pending, hp]
    exact ⟨rfl, rfl⟩

/-- Witness for C8: the machine-level conjunct applied right after a
live-tail request was issued from the initial state. -/
theorem cursor_hasMore_verbatim_witness :
    ((step initConfig (.call false true)).inFlight
        = some (Flags.mk false true) ∧
      (step initConfig (.call false true)).vs.pending = none) ∧
    ((settlePath (step initConfig (.call false true))
        (some respA)).vs.nextCursor = respA.cursor ∧
      (settlePath (step initConfig (.call false true))
        (some respA)).vs.hasMore = respA.has_more) :=
  ⟨⟨by decide, by decide⟩,
    cursor_hasMore_verbatim.2 (step initConfig (.call false true))
      (Flags.mk false true) respA (by decide) (by decide)⟩

/-- C9: settings updates are never optimistic.  A non-2xx response or a
body without `ok === true` leaves both the stored settings and the
rendered form unchanged (only an error message is surfaced); only a
successful response replaces the stored settings — with the returned
`logging` object when present, the sent payload otherwise — and
re-renders the form from them. -/
theorem saveLogSettings_not_optimistic :
    (∀ (payload : LogSettings) (resp : SettingsResponse)
        (st : SettingsUiState),
      resp.httpOk = false ∨ resp.okFlag = false →
      saveLogSettings payload resp st = st) ∧
    (∀ (payload L : LogSettings) (resp : SettingsResponse)
        (st : SettingsUiState),
      resp.httpOk = true → resp.okFlag = true → resp.logging = some L →
      (saveLogSettings payload resp st).settings = some L ∧
      (saveLogSettings payload resp st).form = renderLogSettings (some L)) ∧
    (∀ (payload : LogSettings) (resp : SettingsResponse)
        (st : SettingsUiState),
      resp.httpOk = true → resp.okFlag = true →
      (saveLogSettings payload resp st).settings
        = some (resp.logging.getD payload)) := by
  refine ⟨?_, ?_, ?_⟩
  · intro payload resp st h
    rcases h with h | h <;> simp [saveLogSettings, h]
  · intro payload L resp st h1 h2 h3
    simp [saveLogSettings, h1, h2, h3]
  · intro payload resp st h1 h2
    simp [saveLogSettings, h1, h2]

/-- Witness for C9: a 400-class response (non-2xx) leaves a populated
settings state untouched. -/
theorem saveLogSettings_not_optimistic_witness :
    (({ httpOk := false, okFlag := true, logging := none }
        : SettingsResponse).httpOk = false ∨
      ({ httpOk := false, okFlag := true, logging := none }
        : SettingsResponse).okFlag = false) ∧
    saveLogSettings DEFAULT_LOG_SETTINGS
        { httpOk := false, okFlag := true, logging := none }
        { settings := none, form := DEFAULT_LOG_SETTINGS }
      = { settings := none, form := DEFAULT_LOG_SETTINGS } :=
  ⟨Or.inl rfl,
    saveLogSettings_not_optimistic.1 DEFAULT_LOG_SETTINGS
      { httpOk := false, okFlag := true, logging := none }
      { settings := none, form := DEFAULT_LOG_SETTINGS } (Or.inl rfl)⟩

/-- C10: starting live tail while it is already running is a complete
no-op (no second immediate fetch, no second timer), stopping while
stopped is a no-op, and in every reachable state at most one interval
timer is armed, a poll timer handle is held exactly while following, and
stopping from the running state clears the handle. -/
theorem autoRefresh_idempotent_single_timer :
    (∀ c : Config, c.vs.autoRefresh = true → step c .startTail = c) ∧
    (∀ c : Config, c.vs.autoRefresh = false → step c .stopTail = c) ∧
    (∀ tr : List Ev,
      (run initConfig tr).armed
        = (if (run initConfig tr).vs.autoRefresh = true then 1 else 0) ∧
      (run initConfig tr).armed ≤ 1 ∧
      (run initConfig tr).vs.pollTimer.isSome
        = (run initConfig tr).vs.autoRefresh ∧
      ((run initConfig tr).vs.autoRefresh = true →
        (step (run initConfig tr) .stopTail).vs.pollTimer = none)) := by
  refine ⟨?_, ?_, ?_⟩
  · intro c h
    show startTailFun c = c
    unfold startTailFun
    rw [if_pos h]
  · intro c h
    show stopTailFun c = c
    unfold stopTailFun
    rw [if_neg (by rw [h]; exact Bool.false_ne_true)]
  · intro tr
    have h := cinv_run tr initConfig cinv_init
    refine ⟨h.armed_eq, ?_, h.timer_eq, ?_⟩
    · rw [h.armed_eq]
      split <;> omega
    · intro _
      exact stopTail_pollTimer _ h.timer_eq

/-- Witness for C10: idempotence applied at a state where live tail runs
(after one start) and at the initial, stopped state. -/
theorem autoRefresh_idempotent_single_timer_witness :
    ((run initConfig [Ev.startTail]).vs.autoRefresh = true ∧
      step (run initConfig [Ev.startTail]) .startTail
        = run initConfig [Ev.startTail]) ∧
    (initConfig.vs.autoRefresh = false ∧
      step initConfig .stopTail = initConfig) :=
  ⟨⟨by decide, autoRefresh_idempotent_single_timer.1 _ (by decide)⟩,
    ⟨rfl, autoRefresh_idempotent_single_timer.2.1 _ rfl⟩⟩

end Wirelessboard
